import Mathlib

/-!
Shallow embedding of the photo-editor application (edit/analyze batch
workflow controller, Gemini service wrappers, localStorage result store)
and proofs of the specification's claims about it.

The embedding follows the source: the React component state becomes
`AppState`, the browser localStorage slot under the fixed key becomes the
`store` field of `World`, and a generate run (`handleGenerate`) is
modelled as the list of observable events it performs, in order —
state updates, remote calls, and store writes — together with a fold
(`runEvents`) that applies them to a world.
-/

namespace PhotoEditor

/-- Mode of the app: image editor or image analyzer. -/
inductive Mode where
  | edit
  | analyze
deriving DecidableEq, Repr

/-- A selected image: data-URL string plus the file's name and MIME type
(the fields of the `File` object the app reads). -/
structure ImageFile where
  url : String
  fileName : String
  fileType : String
deriving DecidableEq, Repr

/-- Per-image outcome of an edit run: `originalUrl`, and either an edited
data URL or an error message. -/
structure EditedImageResult where
  originalUrl : String
  editedUrl : Option String
  error : Option String
deriving DecidableEq, Repr

/-- Progress counter published during an edit batch run. -/
structure Progress where
  current : Nat
  total : Nat
deriving DecidableEq, Repr

/-- The React component state of `App`. -/
structure AppState where
  mode : Mode
  originalImages : List ImageFile
  editedImages : List EditedImageResult
  analysisResult : Option String
  prompt : String
  isLoading : Bool
  error : Option String
  progress : Option Progress
deriving DecidableEq, Repr

/-- What may sit in localStorage under the fixed key: a serialized array
of results, a JSON value that parses but is not an array, or bytes on
which `JSON.parse` throws. -/
inductive StoredValue where
  | arr (xs : List EditedImageResult)
  | nonArray
  | malformed
deriving DecidableEq, Repr

/-- App state together with the localStorage slot under
`LOCAL_STORAGE_KEY` (`none` = key absent). -/
structure World where
  app : AppState
  store : Option StoredValue
deriving DecidableEq, Repr

/-! ## Gemini service wrappers (src/services/geminiService.ts)

The network interaction itself is abstracted as the response the awaited
call settles with: `Except Unit _` with `.error ()` standing for a
rejected call. The wrappers' post-processing of that response is
modelled exactly. -/

/-- One part of a Gemini response candidate: `inlineData` holds
`part.inlineData?.data` when present. -/
structure Part where
  inlineData : Option String
  text : Option String
deriving DecidableEq, Repr

/-- Response to the edit call: `parts` is
`response.candidates?.[0]?.content?.parts` (absent when any link of that
optional chain is missing). -/
structure EditApiResponse where
  parts : Option (List Part)
deriving DecidableEq, Repr

/-- Response to the analyze call: its `text` field. -/
structure AnalyzeApiResponse where
  text : String
deriving DecidableEq, Repr

/-- Error message thrown by `editImageWithPrompt`'s catch block. -/
def editFailMsg : String :=
  "Failed to communicate with the AI model. Please check your API key and network connection."

/-- Error message thrown by `analyzeImageWithPrompt`'s catch block. -/
def analyzeFailMsg : String :=
  "Failed to communicate with the AI model for analysis. Please check your API key and network connection."

/-- `editImageWithPrompt` from geminiService.ts. Scans the response parts
for the first `inlineData.data`; the inner `throw new Error("No image was
generated ...")` sits inside the `try`, so it is caught and rewrapped
into the generic communication-failure message, as is a rejected call. -/
def editImageWithPrompt (base64ImageData mimeType prompt : String)
    (api : Except Unit EditApiResponse) : Except String String :=
  match api with
  | .error _ => .error editFailMsg
  | .ok resp =>
    match resp.parts with
    | some ps =>
      match ps.findSome? Part.inlineData with
      | some d => .ok d
      | none => .error editFailMsg
    | none => .error editFailMsg

/-- `analyzeImageWithPrompt` from geminiService.ts: returns
`response.text` on success, throws the generic analysis communication
failure otherwise. -/
def analyzeImageWithPrompt (base64ImageData mimeType prompt : String)
    (api : Except Unit AnalyzeApiResponse) : Except String String :=
  match api with
  | .error _ => .error analyzeFailMsg
  | .ok resp => .ok resp.text

/-! ## The App component's handlers -/

/-- The responses the external world gives during one generate run:
the edit call's response for image index `i`, the analyze call's
response, and whether `localStorage.setItem` succeeds. -/
structure Oracle where
  editApi : Nat → Except Unit EditApiResponse
  analyzeApi : Except Unit AnalyzeApiResponse
  storeOk : Bool

/-- Observable events of a generate run, in program order: React state
updates, remote calls, and the localStorage write (`storeFail` records an
attempted write that threw and was swallowed). -/
inductive Event where
  | setLoading (b : Bool)
  | setErr (e : Option String)
  | setEdited (rs : List EditedImageResult)
  | setAnalysis (a : Option String)
  | setProg (current total : Nat)
  | callEdit (base64 mimeType prompt : String)
  | callAnalyze (base64 mimeType prompt : String)
  | storeSet (rs : List EditedImageResult)
  | storeFail
deriving DecidableEq, Repr

/-- Effect of one event on the world. -/
def applyEvent (w : World) : Event → World
  | .setLoading b => { w with app := { w.app with isLoading := b } }
  | .setErr e => { w with app := { w.app with error := e } }
  | .setEdited rs => { w with app := { w.app with editedImages := rs } }
  | .setAnalysis a => { w with app := { w.app with analysisResult := a } }
  | .setProg c t => { w with app := { w.app with progress := some ⟨c, t⟩ } }
  | .callEdit _ _ _ => w
  | .callAnalyze _ _ _ => w
  | .storeSet rs => { w with store := some (.arr rs) }
  | .storeFail => w

/-- Apply a list of events in order. -/
def runEvents (w : World) (es : List Event) : World :=
  es.foldl applyEvent w

/-- `image.url.split(',')[1]`: the base64 payload handed to the service. -/
def base64Of (img : ImageFile) : String :=
  (img.url.splitOn ",").getD 1 ""

/-- The outcome the loop body pushes for one image, given the edit call's
response: on success a data URL rebuilt from the source MIME type, on
failure the caught error's message. -/
def editItem (prompt : String) (api : Except Unit EditApiResponse)
    (img : ImageFile) : EditedImageResult :=
  match editImageWithPrompt (base64Of img) img.fileType prompt api with
  | .ok d => ⟨img.url, some ("data:" ++ img.fileType ++ ";base64," ++ d), none⟩
  | .error m => ⟨img.url, none, some m⟩

/-- The `results` list accumulated by the edit loop over the images
starting at index `i`. -/
def editResults (prompt : String) (api : Nat → Except Unit EditApiResponse) :
    List ImageFile → Nat → List EditedImageResult
  | [], _ => []
  | img :: rest, i => editItem prompt (api i) img :: editResults prompt api rest (i + 1)

/-- The events of the edit loop over the images starting at index `i`
with already-accumulated results `acc`: per image, the remote call, then
(in the `finally` block) the progress update and the republication of the
full accumulated result list. -/
def editEvents (prompt : String) (api : Nat → Except Unit EditApiResponse)
    (total : Nat) : List ImageFile → Nat → List EditedImageResult → List Event
  | [], _, _ => []
  | img :: rest, i, acc =>
    let item := editItem prompt (api i) img
    .callEdit (base64Of img) img.fileType prompt
      :: .setProg (i + 1) total
      :: .setEdited (acc ++ [item])
      :: editEvents prompt api total rest (i + 1) (acc ++ [item])

/-- Precondition failure message of `handleGenerate`. -/
def precondMsg : String := "Please upload an image and provide a prompt."

/-- `handleGenerate` as the ordered list of events one invocation
performs, given the current world and the oracle of external responses.
Mirrors the source: guard, reset block, then the mode branch, then
`setIsLoading(false)`. -/
def handleGenerate (w : World) (o : Oracle) : List Event :=
  if w.app.originalImages.length = 0 ∨ w.app.prompt = "" then
    [.setErr (some precondMsg)]
  else
    let n := w.app.originalImages.length
    let pre : List Event :=
      [.setLoading true, .setErr none, .setEdited [], .setAnalysis none, .setProg 0 n]
    let body : List Event :=
      match w.app.mode with
      | .edit =>
        let res := editResults w.app.prompt o.editApi w.app.originalImages 0
        editEvents w.app.prompt o.editApi n w.app.originalImages 0 []
          ++ (if 0 < res.length then
                (if o.storeOk then [.storeSet res] else [.storeFail])
              else [])
      | .analyze =>
        let img := w.app.originalImages.headD ⟨"", "", ""⟩
        let b64 := base64Of img
        .callAnalyze b64 img.fileType w.app.prompt
          :: (match analyzeImageWithPrompt b64 img.fileType w.app.prompt o.analyzeApi with
              | .ok t => [.setAnalysis (some t)]
              | .error m => [.setErr (some m)])
    pre ++ body ++ [.setLoading false]

/-- The world after one `handleGenerate` invocation completes. -/
def generateRun (w : World) (o : Oracle) : World :=
  runEvents w (handleGenerate w o)

/-- `handleModeChange`: resets selection, outcomes, analysis, prompt,
error and progress; removes the persisted key only when the new mode is
`analyze`. -/
def handleModeChange (w : World) (newMode : Mode) : World :=
  { app := { w.app with
      mode := newMode, originalImages := [], editedImages := [],
      analysisResult := none, prompt := "", error := none, progress := none },
    store := if newMode = .analyze then none else w.store }

/-- `prev.filter((_, index) => index !== indexToRemove)`. -/
def removeAtIndex (l : List ImageFile) (idx : Nat) : List ImageFile :=
  (l.enum.filter (fun p => p.1 ≠ idx)).map (fun p => p.2)

/-- `handleRemoveImage`: drops the image at the index, resets outcomes
and analysis, removes the persisted key. It does not touch `error`. -/
def handleRemoveImage (w : World) (idx : Nat) : World :=
  { app := { w.app with
      originalImages := removeAtIndex w.app.originalImages idx,
      editedImages := [], analysisResult := none },
    store := none }

/-- `handleClearImages`: empties the selection, resets outcomes and
analysis, removes the persisted key. It does not touch `error`. -/
def handleClearImages (w : World) : World :=
  { app := { w.app with
      originalImages := [], editedImages := [], analysisResult := none },
    store := none }

/-- `handleImagesSelect`: in analyze mode keeps only the first file, in
edit mode appends; resets outcomes, analysis and error; removes the
persisted key. -/
def handleImagesSelect (w : World) (newFiles : List ImageFile) : World :=
  { app := { w.app with
      originalImages :=
        if w.app.mode = .analyze then newFiles.take 1
        else w.app.originalImages ++ newFiles,
      editedImages := [], analysisResult := none, error := none },
    store := none }

/-- The mount-time `useEffect`: read the fixed key; if it parses as an
array, enter edit mode with those outcomes; if `JSON.parse` throws, log
and remove the key; if it parses but is not an array, do nothing. -/
def sessionLoad (w : World) : World :=
  match w.store with
  | none => w
  | some (.arr xs) => { w with app := { w.app with mode := .edit, editedImages := xs } }
  | some .nonArray => w
  | some .malformed => { w with store := none }

/-! ## Trace observations -/

/-- Is the event a remote call? -/
def isCall : Event → Bool
  | .callEdit _ _ _ => true
  | .callAnalyze _ _ _ => true
  | _ => false

/-- Is the event a localStorage write (attempted or successful)? -/
def isStoreWrite : Event → Bool
  | .storeSet _ => true
  | .storeFail => true
  | _ => false

/-- The remote-call events of a trace, in order. -/
def callEvents (t : List Event) : List Event :=
  t.filter isCall

/-- The progress values published by a trace, in order. -/
def progEvents (t : List Event) : List (Nat × Nat) :=
  t.filterMap (fun e =>
    match e with
    | .setProg c tot => some (c, tot)
    | _ => none)

/-! ## Concrete sample data (used to evaluate the theorems on inputs) -/

/-- A sample selected PNG image. -/
def sampleImage1 : ImageFile :=
  ⟨"data:image/png;base64,AAAA", "a.png", "image/png"⟩

/-- A sample selected JPEG image. -/
def sampleImage2 : ImageFile :=
  ⟨"data:image/jpeg;base64,BBBB", "b.jpg", "image/jpeg"⟩

/-- Edit mode, two images selected, non-empty prompt. -/
def sampleEditWorld : World :=
  { app := { mode := .edit, originalImages := [sampleImage1, sampleImage2],
             editedImages := [], analysisResult := none,
             prompt := "Remove the background", isLoading := false,
             error := none, progress := none },
    store := none }

/-- Analyze mode, one image selected, non-empty prompt. -/
def sampleAnalyzeWorld : World :=
  { app := { mode := .analyze, originalImages := [sampleImage1],
             editedImages := [], analysisResult := none,
             prompt := "Describe this image in detail", isLoading := false,
             error := none, progress := none },
    store := none }

/-- Edit mode, one image, but with an active error banner and a persisted
snapshot present. -/
def sampleErrorWorld : World :=
  { app := { mode := .edit, originalImages := [sampleImage1],
             editedImages := [], analysisResult := none, prompt := "",
             isLoading := false, error := some "boom", progress := none },
    store := some (.arr []) }

/-- Edit mode with no images selected (generate precondition violated). -/
def sampleEmptyWorld : World :=
  { app := { mode := .edit, originalImages := [], editedImages := [],
             analysisResult := none, prompt := "Remove the background",
             isLoading := false, error := none, progress := none },
    store := none }

/-- The component's initial state at mount time (before `sessionLoad`),
with the store field to be set per scenario. -/
def startupWorld : World :=
  { app := { mode := .edit, originalImages := [], editedImages := [],
             analysisResult := none, prompt := "", isLoading := false,
             error := none, progress := none },
    store := none }

/-- Oracle: image 0's edit call succeeds with payload "CCCC", any other
edit call rejects; the analyze call succeeds with a fixed sentence; the
localStorage write succeeds. -/
def sampleOracle : Oracle :=
  { editApi := fun i =>
      if i = 0 then .ok ⟨some [⟨some "CCCC", none⟩]⟩ else .error (),
    analyzeApi := .ok ⟨"A red bicycle leaning against a brick wall."⟩,
    storeOk := true }

/-! ## Basic lemmas about runs and the edit loop -/

theorem runEvents_append (w : World) (es fs : List Event) :
    runEvents w (es ++ fs) = runEvents (runEvents w es) fs := by
  simp [runEvents, List.foldl_append]

theorem editItem_originalUrl (p : String) (api : Except Unit EditApiResponse)
    (img : ImageFile) : (editItem p api img).originalUrl = img.url := by
  unfold editItem
  cases editImageWithPrompt (base64Of img) img.fileType p api <;> rfl

theorem editItem_exclusive (p : String) (api : Except Unit EditApiResponse)
    (img : ImageFile) :
    (∃ d, (editItem p api img).editedUrl = some d ∧ (editItem p api img).error = none) ∨
    (∃ m, (editItem p api img).error = some m ∧ (editItem p api img).editedUrl = none) := by
  unfold editItem
  cases editImageWithPrompt (base64Of img) img.fileType p api with
  | ok d => exact Or.inl ⟨_, rfl, rfl⟩
  | error m => exact Or.inr ⟨_, rfl, rfl⟩

theorem editResults_map_originalUrl (p : String)
    (api : Nat → Except Unit EditApiResponse) :
    ∀ (imgs : List ImageFile) (i : Nat),
      (editResults p api imgs i).map EditedImageResult.originalUrl =
        imgs.map ImageFile.url := by
  intro imgs
  induction imgs with
  | nil => intro i; rfl
  | cons img rest ih =>
    intro i
    simp [editResults, editItem_originalUrl, ih (i + 1)]

theorem editResults_length (p : String) (api : Nat → Except Unit EditApiResponse)
    (imgs : List ImageFile) (i : Nat) :
    (editResults p api imgs i).length = imgs.length := by
  have h := editResults_map_originalUrl p api imgs i
  have := congrArg List.length h
  simpa using this

theorem editResults_mem_exclusive (p : String)
    (api : Nat → Except Unit EditApiResponse) :
    ∀ (imgs : List ImageFile) (i : Nat), ∀ r ∈ editResults p api imgs i,
      (∃ d, r.editedUrl = some d ∧ r.error = none) ∨
      (∃ m, r.error = some m ∧ r.editedUrl = none) := by
  intro imgs
  induction imgs with
  | nil => intro i r hr; simp [editResults] at hr
  | cons img rest ih =>
    intro i r hr
    rw [editResults] at hr
    rcases List.mem_cons.mp hr with h | h
    · subst h; exact editItem_exclusive p (api i) img
    · exact ih (i + 1) r h

theorem runEvents_editEvents (p : String) (api : Nat → Except Unit EditApiResponse)
    (total : Nat) :
    ∀ (imgs : List ImageFile) (i : Nat) (acc : List EditedImageResult) (w : World),
      imgs ≠ [] →
      runEvents w (editEvents p api total imgs i acc) =
        { w with app := { w.app with
            editedImages := acc ++ editResults p api imgs i,
            progress := some ⟨i + imgs.length, total⟩ } } := by
  intro imgs
  induction imgs with
  | nil => intro i acc w h; exact absurd rfl h
  | cons img rest ih =>
    intro i acc w _
    rw [editEvents]
    cases rest with
    | nil =>
      simp [runEvents, applyEvent, editEvents, editResults]
    | cons img2 rest2 =>
      show runEvents w
        (.callEdit (base64Of img) img.fileType p
          :: .setProg (i + 1) total
          :: .setEdited (acc ++ [editItem p (api i) img])
          :: editEvents p api total (img2 :: rest2) (i + 1) (acc ++ [editItem p (api i) img])) = _
      have hrun : runEvents w
          (.callEdit (base64Of img) img.fileType p
            :: .setProg (i + 1) total
            :: .setEdited (acc ++ [editItem p (api i) img])
            :: editEvents p api total (img2 :: rest2) (i + 1) (acc ++ [editItem p (api i) img])) =
          runEvents
            { w with app := { w.app with
                editedImages := acc ++ [editItem p (api i) img],
                progress := some ⟨i + 1, total⟩ } }
            (editEvents p api total (img2 :: rest2) (i + 1) (acc ++ [editItem p (api i) img])) := rfl
      rw [hrun, ih (i + 1) (acc ++ [editItem p (api i) img]) _ (by simp)]
      simp [editResults]
      omega

/-- `List.Chain` form of non-decreasing progress along the edit loop. -/
theorem progEvents_editEvents_chain (p : String)
    (api : Nat → Except Unit EditApiResponse) (total : Nat) :
    ∀ (imgs : List ImageFile) (i : Nat) (acc : List EditedImageResult),
      List.Chain (fun a b => a.1 ≤ b.1) (i, total)
        (progEvents (editEvents p api total imgs i acc)) := by
  intro imgs
  induction imgs with
  | nil => intro i acc; exact List.Chain.nil
  | cons img rest ih =>
    intro i acc
    rw [editEvents]
    show List.Chain (fun a b => a.1 ≤ b.1) (i, total)
      ((i + 1, total) :: progEvents (editEvents p api total rest (i + 1) (acc ++ [editItem p (api i) img])))
    exact List.Chain.cons (Nat.le_succ i) (ih (i + 1) _)

theorem progEvents_editEvents_getLast (p : String)
    (api : Nat → Except Unit EditApiResponse) (total : Nat) :
    ∀ (imgs : List ImageFile) (i : Nat) (acc : List EditedImageResult),
      imgs ≠ [] →
      (progEvents (editEvents p api total imgs i acc)).getLast? =
        some (i + imgs.length, total) := by
  intro imgs
  induction imgs with
  | nil => intro i acc h; exact absurd rfl h
  | cons img rest ih =>
    intro i acc _
    have hstep : progEvents (editEvents p api total (img :: rest) i acc) =
        (i + 1, total) :: progEvents (editEvents p api total rest (i + 1)
          (acc ++ [editItem p (api i) img])) := rfl
    rw [hstep]
    cases rest with
    | nil => simp [editEvents, progEvents]
    | cons img2 rest2 =>
      have h := ih (i + 1) (acc ++ [editItem p (api i) img]) (by simp)
      cases hpe : progEvents (editEvents p api total (img2 :: rest2) (i + 1)
          (acc ++ [editItem p (api i) img])) with
      | nil => rw [hpe] at h; simp at h
      | cons q qs =>
        rw [hpe] at h
        rw [List.getLast?_cons_cons, h]
        simp [List.length_cons]
        omega

/-! ## Closed forms of a generate run -/

theorem handleGenerate_precond_eq (w : World) (o : Oracle)
    (h : w.app.originalImages = [] ∨ w.app.prompt = "") :
    handleGenerate w o = [.setErr (some precondMsg)] := by
  unfold handleGenerate
  rw [if_pos]
  rcases h with h | h
  · exact Or.inl (by rw [h]; rfl)
  · exact Or.inr h

theorem handleGenerate_edit_eq (w : World) (o : Oracle)
    (hm : w.app.mode = .edit) (hne : w.app.originalImages ≠ [])
    (hp : w.app.prompt ≠ "") :
    handleGenerate w o =
      [.setLoading true, .setErr none, .setEdited [], .setAnalysis none,
        .setProg 0 w.app.originalImages.length]
        ++ (editEvents w.app.prompt o.editApi w.app.originalImages.length
              w.app.originalImages 0 []
            ++ (if o.storeOk then
                  [.storeSet (editResults w.app.prompt o.editApi w.app.originalImages 0)]
                else [.storeFail]))
        ++ [.setLoading false] := by
  have hg : ¬(w.app.originalImages.length = 0 ∨ w.app.prompt = "") := by
    push_neg
    exact ⟨fun h => hne (List.length_eq_zero.mp h), hp⟩
  have hlen : 0 < (editResults w.app.prompt o.editApi w.app.originalImages 0).length := by
    rw [editResults_length]
    exact List.length_pos.mpr hne
  unfold handleGenerate
  rw [if_neg hg, hm]
  simp [if_pos hlen]

theorem generateRun_edit (w : World) (o : Oracle)
    (hm : w.app.mode = .edit) (hne : w.app.originalImages ≠ [])
    (hp : w.app.prompt ≠ "") :
    generateRun w o =
      { app := { w.app with
          isLoading := false, error := none,
          editedImages := editResults w.app.prompt o.editApi w.app.originalImages 0,
          analysisResult := none,
          progress := some ⟨w.app.originalImages.length, w.app.originalImages.length⟩ },
        store := if o.storeOk then
            some (.arr (editResults w.app.prompt o.editApi w.app.originalImages 0))
          else w.store } := by
  rw [generateRun, handleGenerate_edit_eq w o hm hne hp]
  rw [runEvents_append, runEvents_append, runEvents_append]
  rw [runEvents_editEvents _ _ _ _ _ _ _ hne]
  cases hst : o.storeOk <;> simp [runEvents, applyEvent]

theorem handleGenerate_analyze_eq (w : World) (o : Oracle)
    (hm : w.app.mode = .analyze) (img : ImageFile) (rest : List ImageFile)
    (himg : w.app.originalImages = img :: rest) (hp : w.app.prompt ≠ "") :
    handleGenerate w o =
      [.setLoading true, .setErr none, .setEdited [], .setAnalysis none,
        .setProg 0 w.app.originalImages.length]
        ++ (.callAnalyze (base64Of img) img.fileType w.app.prompt
            :: (match analyzeImageWithPrompt (base64Of img) img.fileType
                  w.app.prompt o.analyzeApi with
                | .ok t => [.setAnalysis (some t)]
                | .error m => [.setErr (some m)]))
        ++ [.setLoading false] := by
  have hg : ¬(w.app.originalImages.length = 0 ∨ w.app.prompt = "") := by
    push_neg
    refine ⟨?_, hp⟩
    rw [himg]
    simp
  unfold handleGenerate
  rw [if_neg hg, hm]
  simp [himg]

theorem generateRun_analyze (w : World) (o : Oracle)
    (hm : w.app.mode = .analyze) (img : ImageFile) (rest : List ImageFile)
    (himg : w.app.originalImages = img :: rest) (hp : w.app.prompt ≠ "") :
    generateRun w o =
      { app := { w.app with
          isLoading := false,
          error := match o.analyzeApi with
            | .ok _ => none
            | .error _ => some analyzeFailMsg,
          editedImages := [],
          analysisResult := match o.analyzeApi with
            | .ok r => some r.text
            | .error _ => none,
          progress := some ⟨0, w.app.originalImages.length⟩ },
        store := w.store } := by
  rw [generateRun, handleGenerate_analyze_eq w o hm img rest himg hp]
  cases o.analyzeApi with
  | ok r => simp [runEvents, applyEvent, analyzeImageWithPrompt]
  | error u => simp [runEvents, applyEvent, analyzeImageWithPrompt]

/-- No localStorage event is emitted inside the edit loop itself. -/
theorem editEvents_no_store (p : String) (api : Nat → Except Unit EditApiResponse)
    (total : Nat) :
    ∀ (imgs : List ImageFile) (i : Nat) (acc : List EditedImageResult),
      ∀ e ∈ editEvents p api total imgs i acc, isStoreWrite e = false := by
  intro imgs
  induction imgs with
  | nil => intro i acc e he; simp [editEvents] at he
  | cons img rest ih =>
    intro i acc e he
    rw [editEvents] at he
    rcases List.mem_cons.mp he with h | h
    · subst h; rfl
    rcases List.mem_cons.mp h with h | h
    · subst h; rfl
    rcases List.mem_cons.mp h with h | h
    · subst h; rfl
    · exact ih (i + 1) _ e h

/-- Whenever the preconditions hold, the trace starts with the fixed
reset block and ends with `setLoading false`, for either mode. -/
theorem handleGenerate_shape (w : World) (o : Oracle)
    (hne : w.app.originalImages ≠ []) (hp : w.app.prompt ≠ "") :
    ∃ body : List Event,
      handleGenerate w o =
        [.setLoading true, .setErr none, .setEdited [], .setAnalysis none,
          .setProg 0 w.app.originalImages.length] ++ body ++ [.setLoading false] := by
  have hg : ¬(w.app.originalImages.length = 0 ∨ w.app.prompt = "") := by
    push_neg
    exact ⟨fun h => hne (List.length_eq_zero.mp h), hp⟩
  unfold handleGenerate
  rw [if_neg hg]
  exact ⟨_, rfl⟩

/-! ## The claims -/

/-- C1: In edit mode, for every non-empty selection and any pattern of
remote successes and failures, the finished run's outcome sequence has
exactly one outcome per input image, and mapping each outcome to its
`originalUrl` reproduces the input images' encoded data in input order;
in particular a failing item never aborts the remaining items. -/
theorem c1_edit_outcomes_match_inputs (w : World) (o : Oracle)
    (hm : w.app.mode = .edit) (hne : w.app.originalImages ≠ [])
    (hp : w.app.prompt ≠ "") :
    (generateRun w o).app.editedImages.length = w.app.originalImages.length ∧
    (generateRun w o).app.editedImages.map EditedImageResult.originalUrl =
      w.app.originalImages.map ImageFile.url := by
  rw [generateRun_edit w o hm hne hp]
  exact ⟨editResults_length _ _ _ _, editResults_map_originalUrl _ _ _ _⟩

/-- Witness for C1 on a concrete two-image batch where the first call
succeeds and the second fails. -/
theorem c1_witness :
    (generateRun sampleEditWorld sampleOracle).app.editedImages.length =
      sampleEditWorld.app.originalImages.length ∧
    (generateRun sampleEditWorld sampleOracle).app.editedImages.map
        EditedImageResult.originalUrl =
      sampleEditWorld.app.originalImages.map ImageFile.url :=
  c1_edit_outcomes_match_inputs sampleEditWorld sampleOracle rfl
    (by decide) (by decide)

/-- C2: Every outcome of a completed edit-mode run has exactly one of the
edited data and the error message present — never both, never neither. -/
theorem c2_outcome_exclusive (w : World) (o : Oracle)
    (hm : w.app.mode = .edit) (hne : w.app.originalImages ≠ [])
    (hp : w.app.prompt ≠ "") :
    ∀ r ∈ (generateRun w o).app.editedImages,
      (∃ d, r.editedUrl = some d ∧ r.error = none) ∨
      (∃ m, r.error = some m ∧ r.editedUrl = none) := by
  rw [generateRun_edit w o hm hne hp]
  exact editResults_mem_exclusive _ _ _ _

/-- Witness for C2 on the first outcome of the concrete batch. -/
theorem c2_witness :
    (∃ d, ((generateRun sampleEditWorld sampleOracle).app.editedImages.headD
        ⟨"", none, none⟩).editedUrl = some d ∧
      ((generateRun sampleEditWorld sampleOracle).app.editedImages.headD
        ⟨"", none, none⟩).error = none) ∨
    (∃ m, ((generateRun sampleEditWorld sampleOracle).app.editedImages.headD
        ⟨"", none, none⟩).error = some m ∧
      ((generateRun sampleEditWorld sampleOracle).app.editedImages.headD
        ⟨"", none, none⟩).editedUrl = none) :=
  c2_outcome_exclusive sampleEditWorld sampleOracle rfl (by decide) (by decide)
    _ (by decide)

/-- C3: Over one edit-mode batch run the published progress counter never
decreases, the last published value is `(total, total)`, and the finished
state's progress equals `total/total`. -/
theorem c3_progress_monotone (w : World) (o : Oracle)
    (hm : w.app.mode = .edit) (hne : w.app.originalImages ≠ [])
    (hp : w.app.prompt ≠ "") :
    List.Chain' (fun a b => a.1 ≤ b.1) (progEvents (handleGenerate w o)) ∧
    (progEvents (handleGenerate w o)).getLast? =
      some (w.app.originalImages.length, w.app.originalImages.length) ∧
    (generateRun w o).app.progress =
      some ⟨w.app.originalImages.length, w.app.originalImages.length⟩ := by
  have htr : progEvents (handleGenerate w o) =
      (0, w.app.originalImages.length) ::
        progEvents (editEvents w.app.prompt o.editApi w.app.originalImages.length
          w.app.originalImages 0 []) := by
    rw [handleGenerate_edit_eq w o hm hne hp]
    cases o.storeOk <;> simp [progEvents, List.filterMap_append]
  refine ⟨?_, ?_, ?_⟩
  · rw [htr]
    exact progEvents_editEvents_chain w.app.prompt o.editApi
      w.app.originalImages.length w.app.originalImages 0 []
  · have hlast := progEvents_editEvents_getLast w.app.prompt o.editApi
      w.app.originalImages.length w.app.originalImages 0 [] hne
    cases hpe : progEvents (editEvents w.app.prompt o.editApi
        w.app.originalImages.length w.app.originalImages 0 []) with
    | nil =>
      rw [hpe] at hlast; simp at hlast
    | cons q qs =>
      rw [hpe] at hlast
      rw [htr, hpe, List.getLast?_cons_cons, hlast]
      simp
  · rw [generateRun_edit w o hm hne hp]

/-- Witness for C3 on the concrete two-image batch. -/
theorem c3_witness :
    List.Chain' (fun a b => a.1 ≤ b.1)
      (progEvents (handleGenerate sampleEditWorld sampleOracle)) ∧
    (progEvents (handleGenerate sampleEditWorld sampleOracle)).getLast? =
      some (sampleEditWorld.app.originalImages.length,
        sampleEditWorld.app.originalImages.length) ∧
    (generateRun sampleEditWorld sampleOracle).app.progress =
      some ⟨sampleEditWorld.app.originalImages.length,
        sampleEditWorld.app.originalImages.length⟩ :=
  c3_progress_monotone sampleEditWorld sampleOracle rfl (by decide) (by decide)

/-- C4: In analyze mode a run makes exactly one remote call — the
analyze call on the single selected image's payload with the prompt. On
success the analysis result is exactly the text the service returned and
no error is raised; on failure the failure message lands in the error
banner and the analysis result stays absent. In neither case is the
persisted snapshot touched. -/
theorem c4_analyze_run (w : World) (o : Oracle)
    (hm : w.app.mode = .analyze) (img : ImageFile) (rest : List ImageFile)
    (himg : w.app.originalImages = img :: rest) (hp : w.app.prompt ≠ "") :
    callEvents (handleGenerate w o) =
      [.callAnalyze (base64Of img) img.fileType w.app.prompt] ∧
    (∀ r, o.analyzeApi = .ok r →
      (generateRun w o).app.analysisResult = some r.text ∧
      (generateRun w o).app.error = none) ∧
    (∀ u, o.analyzeApi = .error u →
      (generateRun w o).app.analysisResult = none ∧
      (generateRun w o).app.error = some analyzeFailMsg) ∧
    (∀ e ∈ handleGenerate w o, isStoreWrite e = false) ∧
    (generateRun w o).store = w.store := by
  refine ⟨?_, ?_, ?_, ?_, ?_⟩
  · rw [handleGenerate_analyze_eq w o hm img rest himg hp]
    cases o.analyzeApi with
    | ok r => simp [callEvents, isCall, analyzeImageWithPrompt, List.filter]
    | error u => simp [callEvents, isCall, analyzeImageWithPrompt, List.filter]
  · intro r hr
    rw [generateRun_analyze w o hm img rest himg hp, hr]
    exact ⟨rfl, rfl⟩
  · intro u hu
    rw [generateRun_analyze w o hm img rest himg hp, hu]
    exact ⟨rfl, rfl⟩
  · intro e he
    rw [handleGenerate_analyze_eq w o hm img rest himg hp] at he
    cases hapi : o.analyzeApi with
    | ok r =>
      simp [analyzeImageWithPrompt, hapi] at he
      rcases he with h | h | h | h | h | h | h | h <;> subst h <;> rfl
    | error u =>
      simp [analyzeImageWithPrompt, hapi] at he
      rcases he with h | h | h | h | h | h | h | h <;> subst h <;> rfl
  · rw [generateRun_analyze w o hm img rest himg hp]

/-- Witness for C4 on the concrete analyze scenario, whose analyze call
returns the fixed sentence. -/
theorem c4_witness :
    callEvents (handleGenerate sampleAnalyzeWorld sampleOracle) =
      [.callAnalyze (base64Of sampleImage1) sampleImage1.fileType
        sampleAnalyzeWorld.app.prompt] ∧
    (generateRun sampleAnalyzeWorld sampleOracle).app.analysisResult =
      some "A red bicycle leaning against a brick wall." ∧
    (generateRun sampleAnalyzeWorld sampleOracle).app.error = none ∧
    (generateRun sampleAnalyzeWorld sampleOracle).store =
      sampleAnalyzeWorld.store := by
  have h := c4_analyze_run sampleAnalyzeWorld sampleOracle rfl sampleImage1 []
    rfl (by decide)
  have hok := h.2.1 ⟨"A red bicycle leaning against a brick wall."⟩ rfl
  exact ⟨h.1, hok.1, hok.2, h.2.2.2.2⟩

/-- C5 counterexample: removing an image while an error banner is active
leaves the banner in place — the claim says it is cleared. -/
theorem c5_counterexample :
    (handleRemoveImage sampleErrorWorld 0).app.error = some "boom" ∧
    some "boom" ≠ (none : Option String) := by
  exact ⟨rfl, by decide⟩

/-- C5 (amended): removing one image or clearing all images resets the
edit outcomes and the analysis result and removes the persisted
snapshot, but leaves the error banner untouched; switching mode resets
outcomes and analysis and clears the banner, but removes the persisted
snapshot only when the new mode is analyze. -/
theorem c5_reset_behavior (w : World) (idx : Nat) (newMode : Mode) :
    ((handleRemoveImage w idx).app.editedImages = [] ∧
      (handleRemoveImage w idx).app.analysisResult = none ∧
      (handleRemoveImage w idx).store = none ∧
      (handleRemoveImage w idx).app.error = w.app.error) ∧
    ((handleClearImages w).app.editedImages = [] ∧
      (handleClearImages w).app.analysisResult = none ∧
      (handleClearImages w).store = none ∧
      (handleClearImages w).app.error = w.app.error) ∧
    ((handleModeChange w newMode).app.editedImages = [] ∧
      (handleModeChange w newMode).app.analysisResult = none ∧
      (handleModeChange w newMode).app.error = none ∧
      (handleModeChange w newMode).store =
        (if newMode = .analyze then none else w.store)) :=
  ⟨⟨rfl, rfl, rfl, rfl⟩, ⟨rfl, rfl, rfl, rfl⟩, ⟨rfl, rfl, rfl, rfl⟩⟩

/-- C6 counterexample: a stored value that parses but is not an array is
not deleted by the mount-time load — the claim says any value that does
not parse as an ordered sequence is deleted. -/
theorem c6_counterexample :
    (sessionLoad { startupWorld with store := some .nonArray }).store =
      some .nonArray ∧
    some StoredValue.nonArray ≠ (none : Option StoredValue) := by
  exact ⟨rfl, by decide⟩

/-- C6 (amended): on process start, loading a corrupt snapshot yields
empty outcomes and surfaces no error in both corrupt cases, but the
stored entry is deleted only when parsing throws; a value that parses as
non-array JSON is ignored yet left in place. -/
theorem c6_session_load (w : World) (hout : w.app.editedImages = []) :
    ((sessionLoad { w with store := some .malformed }).app.editedImages = [] ∧
      (sessionLoad { w with store := some .malformed }).store = none ∧
      (sessionLoad { w with store := some .malformed }).app.error = w.app.error) ∧
    ((sessionLoad { w with store := some .nonArray }).app.editedImages = [] ∧
      (sessionLoad { w with store := some .nonArray }).store = some .nonArray ∧
      (sessionLoad { w with store := some .nonArray }).app.error = w.app.error) :=
  ⟨⟨hout, rfl, rfl⟩, ⟨hout, rfl, rfl⟩⟩

/-- Witness for the amended C6 at the mount-time initial state. -/
theorem c6_witness :
    ((sessionLoad { startupWorld with store := some .malformed }).app.editedImages
        = [] ∧
      (sessionLoad { startupWorld with store := some .malformed }).store = none ∧
      (sessionLoad { startupWorld with store := some .malformed }).app.error =
        startupWorld.app.error) ∧
    ((sessionLoad { startupWorld with store := some .nonArray }).app.editedImages
        = [] ∧
      (sessionLoad { startupWorld with store := some .nonArray }).store =
        some .nonArray ∧
      (sessionLoad { startupWorld with store := some .nonArray }).app.error =
        startupWorld.app.error) :=
  c6_session_load startupWorld rfl

/-- C7: A snapshot write happens only in an edit-mode run, only with a
non-empty outcome sequence, and what is written is exactly the run's
final outcome sequence; and a failing write is swallowed — the app state
after the run is identical to the successful-write case and the store is
simply left unchanged. -/
theorem c7_persistence (w : World) (o : Oracle) :
    (∀ rs, Event.storeSet rs ∈ handleGenerate w o →
      w.app.mode = .edit ∧ rs ≠ [] ∧
      rs = (generateRun w o).app.editedImages) ∧
    ((generateRun w { o with storeOk := false }).app =
      (generateRun w { o with storeOk := true }).app ∧
      (generateRun w { o with storeOk := false }).store = w.store) := by
  by_cases hg : w.app.originalImages = [] ∨ w.app.prompt = ""
  · constructor
    · intro rs hmem
      rw [handleGenerate_precond_eq w o hg] at hmem
      simp at hmem
    · rw [generateRun, generateRun,
        handleGenerate_precond_eq w { o with storeOk := false } hg,
        handleGenerate_precond_eq w { o with storeOk := true } hg]
      exact ⟨rfl, rfl⟩
  · push_neg at hg
    obtain ⟨hne, hp⟩ := hg
    cases hm : w.app.mode with
    | edit =>
      constructor
      · intro rs hmem
        rw [handleGenerate_edit_eq w o hm hne hp] at hmem
        have hres : rs = editResults w.app.prompt o.editApi w.app.originalImages 0 := by
          by_cases hst : o.storeOk = true
          · rw [if_pos hst] at hmem
            simp at hmem
            rcases hmem with h | h
            · have hfalse := editEvents_no_store w.app.prompt o.editApi
                w.app.originalImages.length w.app.originalImages 0 [] _ h
              simp [isStoreWrite] at hfalse
            · exact h
          · rw [if_neg hst] at hmem
            simp at hmem
            have hfalse := editEvents_no_store w.app.prompt o.editApi
              w.app.originalImages.length w.app.originalImages 0 [] _ hmem
            simp [isStoreWrite] at hfalse
        refine ⟨rfl, ?_, ?_⟩
        · rw [hres]
          intro hnil
          have := editResults_length w.app.prompt o.editApi w.app.originalImages 0
          rw [hnil] at this
          exact hne (List.length_eq_zero.mp this.symm)
        · rw [generateRun_edit w o hm hne hp, hres]
      · rw [generateRun_edit w { o with storeOk := false } hm hne hp,
          generateRun_edit w { o with storeOk := true } hm hne hp]
        exact ⟨rfl, rfl⟩
    | analyze =>
      obtain ⟨img, rest, himg⟩ := List.exists_cons_of_ne_nil hne
      constructor
      · intro rs hmem
        rw [handleGenerate_analyze_eq w o hm img rest himg hp] at hmem
        cases hapi : o.analyzeApi with
        | ok r => simp [analyzeImageWithPrompt, hapi] at hmem
        | error u => simp [analyzeImageWithPrompt, hapi] at hmem
      · rw [generateRun_analyze w { o with storeOk := false } hm img rest himg hp,
          generateRun_analyze w { o with storeOk := true } hm img rest himg hp]
        exact ⟨rfl, rfl⟩

/-- Witness for C7: in the concrete edit batch the write happens, its
payload is the final outcome sequence, and it is non-empty. -/
theorem c7_witness :
    sampleEditWorld.app.mode = .edit ∧
    editResults sampleEditWorld.app.prompt sampleOracle.editApi
      sampleEditWorld.app.originalImages 0 ≠ [] ∧
    editResults sampleEditWorld.app.prompt sampleOracle.editApi
      sampleEditWorld.app.originalImages 0 =
      (generateRun sampleEditWorld sampleOracle).app.editedImages := by
  refine (c7_persistence sampleEditWorld sampleOracle).1 _ ?_
  rw [handleGenerate_edit_eq sampleEditWorld sampleOracle rfl (by decide) (by decide)]
  have hst : sampleOracle.storeOk = true := rfl
  simp [hst]

/-- C8: With zero images selected or an empty prompt, invoking generate
performs no remote call, raises the precondition message in the error
banner, and leaves the loading flag exactly as it was (idle stays idle). -/
theorem c8_precondition_guard (w : World) (o : Oracle)
    (h : w.app.originalImages = [] ∨ w.app.prompt = "") :
    callEvents (handleGenerate w o) = [] ∧
    (generateRun w o).app.error = some precondMsg ∧
    (generateRun w o).app.isLoading = w.app.isLoading := by
  rw [generateRun, handleGenerate_precond_eq w o h]
  exact ⟨rfl, rfl, rfl⟩

/-- Witness for C8 on a state with no selected images. -/
theorem c8_witness :
    callEvents (handleGenerate sampleEmptyWorld sampleOracle) = [] ∧
    (generateRun sampleEmptyWorld sampleOracle).app.error = some precondMsg ∧
    (generateRun sampleEmptyWorld sampleOracle).app.isLoading =
      sampleEmptyWorld.app.isLoading :=
  c8_precondition_guard sampleEmptyWorld sampleOracle (Or.inl rfl)

/-- C9: Switching mode always leaves an empty selection, empty edit and
analysis outcomes, an empty prompt and no active error banner, whatever
the prior state was. -/
theorem c9_mode_switch_resets (w : World) (newMode : Mode) :
    (handleModeChange w newMode).app.originalImages = [] ∧
    (handleModeChange w newMode).app.editedImages = [] ∧
    (handleModeChange w newMode).app.analysisResult = none ∧
    (handleModeChange w newMode).app.prompt = "" ∧
    (handleModeChange w newMode).app.error = none :=
  ⟨rfl, rfl, rfl, rfl, rfl⟩

/-- C10: When the preconditions hold, the trace clears the error banner,
the previous edit outcomes and the previous analysis result (positions
1, 2, 3 of the run) strictly before any remote call event occurs. -/
theorem c10_reset_before_calls (w : World) (o : Oracle)
    (hne : w.app.originalImages ≠ []) (hp : w.app.prompt ≠ "") :
    (handleGenerate w o)[1]? = some (.setErr none) ∧
    (handleGenerate w o)[2]? = some (.setEdited []) ∧
    (handleGenerate w o)[3]? = some (.setAnalysis none) ∧
    ∀ j e, (handleGenerate w o)[j]? = some e → isCall e = true → 3 < j := by
  obtain ⟨body, htr⟩ := handleGenerate_shape w o hne hp
  rw [htr]
  refine ⟨rfl, rfl, rfl, ?_⟩
  intro j e hj hc
  by_contra hlt
  push_neg at hlt
  interval_cases j <;>
    (simp only [List.cons_append, List.nil_append, List.getElem?_cons_zero,
      List.getElem?_cons_succ, Option.some.injEq] at hj;
     subst hj; simp [isCall] at hc)

/-- Witness for C10 on the concrete edit batch: its first remote call
sits at position 5, after the three clearing events. -/
theorem c10_witness :
    (handleGenerate sampleEditWorld sampleOracle)[1]? = some (.setErr none) ∧
    (handleGenerate sampleEditWorld sampleOracle)[2]? = some (.setEdited []) ∧
    (handleGenerate sampleEditWorld sampleOracle)[3]? = some (.setAnalysis none) ∧
    3 < 5 := by
  have h := c10_reset_before_calls sampleEditWorld sampleOracle
    (by decide) (by decide)
  exact ⟨h.1, h.2.1, h.2.2.1,
    h.2.2.2 5 (.callEdit (base64Of sampleImage1) sampleImage1.fileType
      sampleEditWorld.app.prompt) rfl rfl⟩

end PhotoEditor
